import Mathlib

/-!
Shallow embedding of the session-multiplexer and container-client core of the
`servin` webview GUI (`src/webview_gui/app.py` and
`src/webview_gui/servin_client.py`).

Python `dict`s keyed by strings are modelled as association lists with
replace-on-insert semantics; Python string operations (`startswith`, `in`,
`lower`, `strip`, slicing) are modelled on the character list underlying a
`String`.  Concurrency is modelled by making every worker-loop iteration an
atomic step driven by an environment script: the script supplies what the
worker observes at that iteration (the shared registry contents, whether the
child process has exited, what a non-blocking read returned, whether an
exception was raised there).
-/

namespace Servin

/-! ### String helpers (Python string primitives) -/

/-- Python `s.startswith(p)`. -/
def strStartsWith (s p : String) : Bool := p.data.isPrefixOf s.data

/-- Python `needle in hay`. -/
def strContains (hay needle : String) : Bool :=
  hay.data.tails.any fun t => needle.data.isPrefixOf t

/-- Python `s.lower()`. -/
def strLower (s : String) : String := ⟨s.data.map Char.toLower⟩

/-- Python `s.strip()`. -/
def strTrim (s : String) : String :=
  ⟨((s.data.dropWhile Char.isWhitespace).reverse.dropWhile Char.isWhitespace).reverse⟩

/-- Python `s[:n]` (slicing by characters). -/
def strTake (s : String) (n : Nat) : String := ⟨s.data.take n⟩

/-! ### Python dicts as association lists -/

/-- A Python `dict` with string keys: an association list where `dinsert`
replaces in place, so keys are never duplicated. -/
abbrev Dict (β : Type) := List (String × β)

/-- `m.get(k)` / `m[k]` lookup: the unique binding for `k`, if any. -/
def dlookup {β : Type} : Dict β → String → Option β
  | [], _ => none
  | (k', v) :: rest, k => if k' = k then some v else dlookup rest k

/-- `m[k] = v`: replace the binding in place, or append a new one. -/
def dinsert {β : Type} : Dict β → String → β → Dict β
  | [], k, v => [(k, v)]
  | (k', v') :: rest, k, v =>
      if k' = k then (k, v) :: rest else (k', v') :: dinsert rest k v

/-- `del m[k]`: drop the binding for `k` (a Python dict holds at most one
binding per key). -/
def derase {β : Type} : Dict β → String → Dict β
  | [], _ => []
  | e :: rest, k => if e.1 = k then derase rest k else e :: derase rest k

/-! ### Sessions and the registry (`app.py` globals) -/

/-- One session-control dict, as stored in `active_log_streams` /
`active_exec_sessions`: `{'stop': bool}` plus, for exec sessions, the
`'input_queue'` list (absence of the key behaves as the empty list). -/
structure Session where
  stop : Bool
  input_queue : List String
deriving DecidableEq, Repr

/-- The two module-level registries of `app.py`. -/
structure GuiState where
  active_log_streams : Dict Session
  active_exec_sessions : Dict Session
deriving DecidableEq, Repr

/-- `f"{request.sid}:{container_id}"` — the registry key. -/
def streamKey (sid cid : String) : String := sid ++ ":" ++ cid

/-- `f"{client_sid}:"` — the ownership prefix used by `cleanup_client_streams`. -/
def clientPrefix (sid : String) : String := sid ++ ":"

/-- What a worker's `while` condition reads:
`registry.get(key, {}).get('stop', True)` — a missing entry reads as `True`. -/
def observedStop (m : Dict Session) (k : String) : Bool :=
  match dlookup m k with
  | some s => s.stop
  | none => true

/-- `registry[key]['stop'] = True` when the key is present (no-op otherwise). -/
def markStop (m : Dict Session) (k : String) : Dict Session :=
  match dlookup m k with
  | some s => dinsert m k { s with stop := true }
  | none => m

/-- Effect of `handle_start_logs` (app.py:587) on `active_log_streams`:
mark any existing session for the key, then bind the key to a fresh
`{'stop': False}` session (the marked dict object becomes unreachable). -/
def handle_start_logs (st : GuiState) (sid cid : String) : GuiState :=
  let key := streamKey sid cid
  { st with active_log_streams :=
      dinsert (markStop st.active_log_streams key) key ⟨false, []⟩ }

/-- Effect of `handle_stop_logs` (app.py:618): if the key is present, set its
stop flag and delete the entry. -/
def handle_stop_logs (st : GuiState) (sid cid : String) : GuiState :=
  let key := streamKey sid cid
  if (dlookup st.active_log_streams key).isSome then
    { st with active_log_streams := derase (markStop st.active_log_streams key) key }
  else st

/-- Effect of `handle_start_exec` (app.py:632) on `active_exec_sessions`. -/
def handle_start_exec (st : GuiState) (sid cid : String) : GuiState :=
  let key := streamKey sid cid
  { st with active_exec_sessions :=
      dinsert (markStop st.active_exec_sessions key) key ⟨false, []⟩ }

/-- Effect of `handle_stop_exec` (app.py:689). -/
def handle_stop_exec (st : GuiState) (sid cid : String) : GuiState :=
  let key := streamKey sid cid
  if (dlookup st.active_exec_sessions key).isSome then
    { st with active_exec_sessions := derase (markStop st.active_exec_sessions key) key }
  else st

/-! ### Messages pushed to a client -/

/-- The `type` field of the pushed `log_data` / `exec_output` payloads; a bare
`socketio.emit('error', ...)` is modelled as type `error`. -/
inductive MsgType
  | initial | stream | system | prompt | input | output | error
deriving DecidableEq, Repr

/-- One message pushed to the owning client. -/
structure Msg where
  type : MsgType
  data : String
deriving DecidableEq, Repr

/-- `handle_exec_input` (app.py:665): an empty unit id is rejected first
(`if not container_id`, app.py:671-673) with `Container ID required`; then,
with the key absent, it emits `No active exec session` and changes nothing;
with the key present it appends the command to the session's input queue
(creating it if missing).  Returns the new state and the messages emitted to
the requesting client. -/
def handle_exec_input (st : GuiState) (sid cid command : String) :
    GuiState × List Msg :=
  if cid = "" then (st, [⟨.error, "Container ID required"⟩])
  else
    let key := streamKey sid cid
    match dlookup st.active_exec_sessions key with
    | none => (st, [⟨.error, "No active exec session"⟩])
    | some s =>
        ({ st with active_exec_sessions :=
             (dinsert st.active_exec_sessions key
               { s with input_queue := s.input_queue ++ [command] }) }, [])

/-! ### Process Invoker (`servin_client.py`, `_run_command`) -/

/-- `subprocess.CompletedProcess`: exit code and captured output. -/
structure CompletedProcess where
  returncode : Int
  stdout : String
  stderr : String
deriving DecidableEq, Repr

/-- What one `subprocess.run` call did: completed (any exit code),
`TimeoutExpired`, or some other launch exception. -/
inductive InvokeOutcome
  | completed (r : CompletedProcess)
  | timedOut
  | launchFailed (m : String)
deriving DecidableEq, Repr

/-- The hard-coded bound passed to `subprocess.run(..., timeout=30)` in
`_run_command` (servin_client.py:142). -/
def RUN_TIMEOUT : Nat := 30

/-- The argument vector `_run_command` passes to `subprocess.run`, minus the
leading binary path: on macOS a `--dev` flag is prepended unless the command
is `--help` (servin_client.py:136). -/
def run_cmd_args (isDarwin : Bool) (args : List String) : List String :=
  if isDarwin ∧ args.head? ≠ some "--help" then "--dev" :: args else args

/-- `_run_command` (servin_client.py:122): a completed child — whatever its
exit code — is returned as a value; `TimeoutExpired` and launch failures are
raised as `ServinError` (modelled as `Except.error` carrying the message). -/
def run_command (isDarwin : Bool) (args : List String) (outcome : InvokeOutcome) :
    Except String CompletedProcess :=
  match outcome with
  | .completed r => .ok r
  | .timedOut =>
      .error ("Command timed out: " ++ String.intercalate " " (run_cmd_args isDarwin args))
  | .launchFailed m => .error ("Failed to execute command: " ++ m)

/-! ### `get_logs` (servin_client.py:858) -/

/-- The args `get_logs` builds for the invoker. -/
def get_logs_args (cid : String) (tail : Nat) : List String :=
  ["logs", cid] ++ (if tail > 0 then ["--tail", Nat.repr tail] else [])

/-- Fallback text for a container with no logs (servin_client.py:882). -/
def no_logs_fallback (cid : String) : String :=
  "Container " ++ strTake cid 12 ++
    " has no logs yet.\nContainer status: created (limited containerization on macOS)"

/-- Fallback text returned by `get_logs`'s own `except` clause
(servin_client.py:889). -/
def logs_unavailable_fallback (cid err : String) : String :=
  "Container " ++ strTake cid 12 ++ " logs unavailable.\nReason: " ++ err ++
    "\nNote: Running on macOS with limited containerization support."

/-- The `try` body of `get_logs`: `.error` is a raised exception (including
the `ServinError` raised for a missing container, which the function's own
`except` clause converts into the fallback string). -/
def get_logs_try (isDarwin : Bool) (cid : String) (tail : Nat)
    (outcome : InvokeOutcome) : Except String String :=
  match run_command isDarwin (get_logs_args cid tail) outcome with
  | .error e => .error e
  | .ok r =>
      if r.returncode ≠ 0 then
        if strContains (strLower r.stderr) "no such container" then
          .error ("Container " ++ cid ++ " not found")
        else if strContains (strLower r.stderr) "no logs available" ∨ strTrim r.stdout = "" then
          .ok (no_logs_fallback cid)
        else
          .error ("Failed to get logs: " ++ r.stderr)
      else
        if strTrim r.stdout ≠ "" then .ok r.stdout
        else .ok ("Container " ++ strTake cid 12 ++ " is running but has no output yet.")

/-- `get_logs` (servin_client.py:858): the `try` body with every raise caught
and turned into the fallback message — a total, string-valued function. -/
def get_logs (isDarwin : Bool) (cid : String) (tail : Nat)
    (outcome : InvokeOutcome) : String :=
  match get_logs_try isDarwin cid tail outcome with
  | .ok s => s
  | .error e => logs_unavailable_fallback cid e

/-! ### `exec_command` (servin_client.py:1092) -/

/-- Python `command.split()` (split on spaces, dropping empty parts). -/
def pySplit (s : String) : List String :=
  (s.splitOn " ").filter fun p => p ≠ ""

/-- `exec_command`: a non-zero exit code from the command itself is a normal
result (`stdout + stderr`), not a raise; a "no such container" stderr raises,
and the outer `except` wraps every raise with `Failed to execute command:`. -/
def exec_command (isDarwin : Bool) (cid command : String)
    (outcome : InvokeOutcome) : Except String String :=
  match run_command isDarwin (["exec", cid] ++ pySplit command) outcome with
  | .error e => .error ("Failed to execute command: " ++ e)
  | .ok r =>
      if r.returncode ≠ 0 then
        if strContains (strLower r.stderr) "no such container" then
          .error ("Failed to execute command: Container " ++ cid ++ " not found")
        else
          .ok (r.stdout ++ r.stderr)
      else
        .ok r.stdout

/-! ### Launch Configuration Records and the Configuration Reconstructor -/

/-- One entry of the `port_mappings` list of a state record; `protocol`
defaults to `"tcp"` when the key is absent (servin_client.py:322). -/
structure PortMapping where
  host_port : String
  container_port : String
  protocol : Option String
deriving DecidableEq, Repr

/-- A persisted launch-configuration record (one state-file JSON object).
Absent/empty string fields are the empty string; absent collections are
empty, matching Python truthiness checks on `state_info.get(...)`. -/
structure StateInfo where
  id : String
  name : String
  hostname : String
  work_dir : String
  env : List (String × String)
  volumes : List (String × String)
  port_mappings : List PortMapping
  network_mode : String
  memory : String
  cpus : String
  image : String
  command : String
  args : List String
deriving DecidableEq, Repr

/-- The port flag of one mapping: emitted only when both ports are non-empty
(servin_client.py:317). -/
def port_flag (p : PortMapping) : List String :=
  if p.host_port ≠ "" ∧ p.container_port ≠ "" then
    ["-p", p.host_port ++ ":" ++ p.container_port ++ "/" ++ p.protocol.getD "tcp"]
  else []

/-- The run command built by `start_container` from a state record
(servin_client.py:291-344): flags only for non-default fields, then the
image, then the original command and args verbatim. -/
def build_run_command (s : StateInfo) : List String :=
  ["run", "-d"]
  ++ (if s.name ≠ "" then ["--name", s.name] else [])
  ++ (if s.hostname ≠ "" then ["--hostname", s.hostname] else [])
  ++ (if s.work_dir ≠ "" ∧ s.work_dir ≠ "/" then ["--workdir", s.work_dir] else [])
  ++ (s.env.flatMap fun kv => ["--env", kv.1 ++ "=" ++ kv.2])
  ++ (s.volumes.flatMap fun hc => ["--volume", hc.1 ++ ":" ++ hc.2])
  ++ (s.port_mappings.flatMap port_flag)
  ++ (if s.network_mode ≠ "" ∧ s.network_mode ≠ "bridge" then ["--network", s.network_mode] else [])
  ++ (if s.memory ≠ "" then ["--memory", s.memory] else [])
  ++ (if s.cpus ≠ "" then ["--cpus", s.cpus] else [])
  ++ [s.image]
  ++ (if s.command ≠ "" then [s.command] else [])
  ++ s.args

/-! ### State Store Reader (`_get_container_state`, servin_client.py:380) -/

/-- The match test applied to each parsed state file (servin_client.py:412):
record id starts with the query, or name equals it, or the filename starts
with it. -/
def state_matches (cid : String) (filename : String) (s : StateInfo) : Bool :=
  strStartsWith s.id cid ∨ s.name = cid ∨ strStartsWith filename cid

/-- `_get_container_state`: scan the state directory's parsed `.json` files
(given here as `(filename, record)` pairs in scan order; unreadable files are
already skipped) and return the first match, else `None`. -/
def get_container_state (store : List (String × StateInfo)) (cid : String) :
    Option StateInfo :=
  match store with
  | [] => none
  | (fn, s) :: rest =>
      if state_matches cid fn s then some s else get_container_state rest cid

/-! ### `get_container` / `start_container` (servin_client.py:247, 264) -/

/-- The fields of a parsed `ls -d` row that `start_container` consults. -/
structure ContainerInfo where
  id : String
  name : String
  status : String
deriving DecidableEq, Repr

/-- `get_container` (servin_client.py:247): first listed container whose id
starts with the query or whose name equals it; raises when none matches.
(The `ls -d` invocation behind `list_containers` is recorded by the caller.) -/
def get_container (containers : List ContainerInfo) (cid : String) :
    Except String ContainerInfo :=
  match containers.find? (fun c => strStartsWith c.id cid ∨ c.name = cid) with
  | some c => .ok c
  | none => .error ("Container not found: " ++ cid)

/-- Environment of one `start_container` call: the parsed container listing,
the state store in scan order, and the outcomes of the `rm` and `run`
invocations (used only if reached). -/
structure StartEnv where
  isDarwin : Bool
  containers : List ContainerInfo
  store : List (String × StateInfo)
  rm_outcome : InvokeOutcome
  run_outcome : InvokeOutcome
deriving Repr

/-- Result payload of a successful `start_container`. -/
structure StartResult where
  old_container_id : String
  new_container_id : String
deriving DecidableEq, Repr

/-- `start_container` (servin_client.py:264): relaunch a stopped container
from its persisted record.  Returns the result (every internal raise is
wrapped by the outer `except` into `Failed to start container: ...`) together
with the argument vectors handed to the Process Invoker, in order.  The state
store is read-only throughout. -/
def start_container (env : StartEnv) (cid : String) :
    Except String StartResult × List (List String) :=
  match get_container env.containers cid with
  | .error e => (.error ("Failed to start container: " ++ e), [["ls", "-d"]])
  | .ok c =>
      if c.status = "running" then
        (.error ("Failed to start container: Container " ++ cid ++ " is already running"),
         [["ls", "-d"]])
      else
        match get_container_state env.store cid with
        | none =>
            (.error ("Failed to start container: Could not find state information for container "
               ++ cid), [["ls", "-d"]])
        | some st =>
            match run_command env.isDarwin ["rm", cid] env.rm_outcome with
            | .error e =>
                (.error ("Failed to start container: " ++ e), [["ls", "-d"], ["rm", cid]])
            | .ok _ =>
                let runCmd := build_run_command st
                match run_command env.isDarwin runCmd env.run_outcome with
                | .error e =>
                    (.error ("Failed to start container: " ++ e),
                     [["ls", "-d"], ["rm", cid], runCmd])
                | .ok r =>
                    if r.returncode ≠ 0 then
                      (.error ("Failed to start container: Failed to start container: "
                         ++ r.stderr), [["ls", "-d"], ["rm", cid], runCmd])
                    else
                      (.ok ⟨cid, strTrim r.stdout⟩,
                       [["ls", "-d"], ["rm", cid], runCmd, ["ls", "-d"]])

/-- Phase 1 of `cleanup_client_streams` (app.py:852) on one registry: set
`stop` on every session whose key starts with `f"{client_sid}:"`. -/
def markClient (m : Dict Session) (sid : String) : Dict Session :=
  m.map fun e =>
    bif strStartsWith e.1 (clientPrefix sid) then (e.1, ⟨true, e.2.input_queue⟩) else e

/-- Phase 2 of `cleanup_client_streams`: delete every marked key. -/
def removeClient (m : Dict Session) (sid : String) : Dict Session :=
  m.filter fun e => ! strStartsWith e.1 (clientPrefix sid)

/-- `cleanup_client_streams` (app.py:852), as called by `handle_disconnect`:
mark-then-remove on both registries. -/
def cleanup_client_streams (st : GuiState) (sid : String) : GuiState :=
  { active_log_streams := removeClient (markClient st.active_log_streams sid) sid,
    active_exec_sessions := removeClient (markClient st.active_exec_sessions sid) sid }

/-! ### Log Stream Worker (`stream_logs_thread`, app.py:703)

One follow-loop iteration checks, in order: the registry's stop flag for the
key, whether the follow child exited, then does a non-blocking `readline`.
The script supplies what each iteration observes; a `raised` event is an
exception inside the loop (handled by the `except` clause at app.py:742). -/

/-- What one follow-loop iteration observes. -/
inductive LogReadEv
  | line (s : String)
  | idle
  | exited
  | raised (m : String)
deriving DecidableEq, Repr

/-- One scripted iteration: the registry contents at the `while` check, and
the poll/read outcome. -/
structure LogIter where
  reg : Dict Session
  ev : LogReadEv
deriving Repr

/-- The follow loop (app.py:727-745): messages emitted, paired with `true`
when the loop actually exited (stop observed, child exited, or exception)
rather than the script running out. -/
def followLogs (key : String) : List LogIter → List Msg × Bool
  | [] => ([], false)
  | it :: rest =>
      if observedStop it.reg key then ([], true)
      else
        match it.ev with
        | .exited => ([], true)
        | .line s =>
            let r := followLogs key rest
            (⟨.stream, s⟩ :: r.1, r.2)
        | .idle => followLogs key rest
        | .raised m => ([⟨.error, "Log streaming error: " ++ m⟩], true)

/-- The `servin logs -f` follow child spawned by the worker (app.py:718);
not a Process Invoker call. -/
def follow_cmd (cid : String) : List String := ["servin", "logs", "-f", cid]

/-- The tail count the worker passes to `get_logs` (app.py:707). -/
def STREAM_LOGS_TAIL : Nat := 100

/-- The default of `get_logs`'s `tail` parameter (servin_client.py:858). -/
def GET_LOGS_DEFAULT_TAIL : Nat := 100

/-- A full `stream_logs_thread` run on the non-exceptional preamble path:
one `get_logs` history fetch (a single Process Invoker call) emitted as an
`initial` batch, then the follow loop.  Returns the emitted messages, the
Process Invoker argument vectors issued (in order), and whether the session
ended (loop exited; the `finally` blocks then emit nothing further). -/
def stream_logs_run (isDarwin : Bool) (cid key : String)
    (historyOutcome : InvokeOutcome) (script : List LogIter) :
    List Msg × List (List String) × Bool :=
  let logs := get_logs isDarwin cid STREAM_LOGS_TAIL historyOutcome
  let r := followLogs key script
  (⟨.initial, logs⟩ :: r.1,
   [run_cmd_args isDarwin (get_logs_args cid STREAM_LOGS_TAIL)],
   r.2)

/-! ### Exec Session Worker (`exec_session_thread`, app.py:760) as a system

The exec session is modelled as a state machine over the shared registry,
driven by a script interleaving facade events (the owning client's
`exec_input` / `stop_exec` / disconnect) with atomic worker-loop iterations.
-/

/-- One scheduled event of an exec session's lifetime. -/
inductive ExecEv
  /-- `handle_exec_input` from the owning client with this command. -/
  | input (cmd : String)
  /-- `handle_stop_exec` from the owning client. -/
  | stopReq
  /-- the owning client disconnects (`cleanup_client_streams`). -/
  | disconnect
  /-- one worker-loop iteration: whether `poll()` reported exit, and what the
  bounded `select`+`readline` returned (`none` = nothing readable). -/
  | iter (polledExit : Bool) (readLine : Option String)
  /-- a worker-loop iteration in which an exception was raised (app.py:826). -/
  | iterRaise (m : String)
deriving DecidableEq, Repr

/-- Instantaneous state of one exec session's world: the exec registry, the
worker's messages to the owning client so far, the lines written to the
child's stdin, the inputs the facade accepted, and whether the worker has
left its loop and run its `finally` blocks. -/
structure ExecSim where
  reg : Dict Session
  trace : List Msg
  writes : List String
  accepted : List String
  halted : Bool
deriving DecidableEq, Repr

/-- The terminal message of the worker's `finally` block (app.py:837). -/
def execEndedMsg : Msg := ⟨.system, "Exec session ended.\n"⟩

/-- Worker teardown: emit any pending messages plus the terminal `system`
message, delete the registry entry (outer `finally`, app.py:849), halt. -/
def execFinish (key : String) (extra : List Msg) (st : ExecSim) : ExecSim :=
  { st with
      trace := st.trace ++ extra ++ [execEndedMsg],
      reg := derase st.reg key,
      halted := true }

/-- One step of the exec-session system. -/
def execStep (sid cid : String) (st : ExecSim) : ExecEv → ExecSim
  | .input cmd =>
      match dlookup st.reg (streamKey sid cid) with
      | none => st
      | some s =>
          { st with
              reg := (dinsert st.reg (streamKey sid cid)
                { s with input_queue := s.input_queue ++ [cmd] }),
              accepted := st.accepted ++ [cmd] }
  | .stopReq =>
      if (dlookup st.reg (streamKey sid cid)).isSome then
        { st with reg := derase (markStop st.reg (streamKey sid cid)) (streamKey sid cid) }
      else st
  | .disconnect =>
      { st with reg := removeClient (markClient st.reg sid) sid }
  | .iter polledExit readLine =>
      if st.halted then st
      else if observedStop st.reg (streamKey sid cid) then execFinish (streamKey sid cid) [] st
      else
        let s := (dlookup st.reg (streamKey sid cid)).getD ⟨false, []⟩
        match s.input_queue with
        | c :: rest =>
            let st1 : ExecSim :=
              { st with
                  reg := (dinsert st.reg (streamKey sid cid) { s with input_queue := rest }),
                  writes := st.writes ++ [c],
                  trace := st.trace ++ [⟨.input, c ++ "\n"⟩] }
            if polledExit then execFinish (streamKey sid cid) [] st1
            else
              match readLine with
              | some l =>
                  if l ≠ "" then { st1 with trace := st1.trace ++ [⟨.output, l⟩] } else st1
              | none => st1
        | [] =>
            if polledExit then execFinish (streamKey sid cid) [] st
            else
              match readLine with
              | some l =>
                  if l ≠ "" then { st with trace := st.trace ++ [⟨.output, l⟩] } else st
              | none => st
  | .iterRaise m =>
      if st.halted then st
      else if observedStop st.reg (streamKey sid cid) then execFinish (streamKey sid cid) [] st
      else
        execFinish (streamKey sid cid)
          [⟨.error, "Exec session error: " ++ m ++ "\n"⟩] st

/-- State right after `handle_start_exec` registered the session and the
worker emitted its `system` banner and `prompt` (app.py:764, 783). -/
def execInit (sid cid shell : String) : ExecSim :=
  { reg := [(streamKey sid cid, ⟨false, []⟩)],
    trace :=
      [⟨.system, "Starting " ++ shell ++ " session in container " ++ cid ++ "...\n"⟩,
       ⟨.prompt, shell ++ "$ "⟩],
    writes := [],
    accepted := [],
    halted := false }

/-- Run an exec session under a schedule. -/
def execRun (sid cid shell : String) (script : List ExecEv) : ExecSim :=
  script.foldl (execStep sid cid) (execInit sid cid shell)

/-- The input-echo payloads of a trace, in order (type `input` messages). -/
def inputEchoes (trace : List Msg) : List String :=
  trace.filterMap fun m => if m.type = .input then some m.data else none

/-! ### Helper lemmas on dictionaries and keys -/

theorem dlookup_dinsert_self {β : Type} (m : Dict β) (k : String) (v : β) :
    dlookup (dinsert m k v) k = some v := by
  induction m with
  | nil => simp [dinsert, dlookup]
  | cons e rest ih =>
      by_cases h : e.1 = k
      · simp [dinsert, dlookup, h]
      · simp [dinsert, dlookup, h, ih]

theorem dlookup_dinsert_ne {β : Type} (m : Dict β) (k k' : String) (v : β)
    (h : k ≠ k') : dlookup (dinsert m k v) k' = dlookup m k' := by
  induction m with
  | nil => simp [dinsert, dlookup, h]
  | cons e rest ih =>
      by_cases he : e.1 = k
      · simp [dinsert, dlookup, he, h]
      · simp [dinsert, dlookup, he, ih]

theorem dlookup_derase_self {β : Type} (m : Dict β) (k : String) :
    dlookup (derase m k) k = none := by
  induction m with
  | nil => simp [derase, dlookup]
  | cons e rest ih =>
      by_cases he : e.1 = k
      · simp [derase, he, ih]
      · simp [derase, dlookup, he, ih]

theorem dlookup_derase_ne {β : Type} (m : Dict β) (k k' : String) (h : k' ≠ k) :
    dlookup (derase m k) k' = dlookup m k' := by
  induction m with
  | nil => simp [derase, dlookup]
  | cons e rest ih =>
      by_cases he : e.1 = k
      · simp [derase, dlookup, he, Ne.symm h, ih]
      · by_cases hk : e.1 = k'
        · simp [derase, dlookup, he, hk, h]
        · simp [derase, dlookup, he, hk, ih]

theorem dlookup_markStop_self (m : Dict Session) (k : String) :
    dlookup (markStop m k) k =
      (dlookup m k).map fun s => { s with stop := true } := by
  unfold markStop
  cases h : dlookup m k with
  | none => simp [h]
  | some s => simp [dlookup_dinsert_self]

theorem dlookup_markClient_pos (m : Dict Session) (sid k : String)
    (h : strStartsWith k (clientPrefix sid) = true) :
    dlookup (markClient m sid) k =
      (dlookup m k).map fun s => (⟨true, s.input_queue⟩ : Session) := by
  induction m with
  | nil => simp [markClient, dlookup]
  | cons e rest ih =>
      cases hs : strStartsWith e.1 (clientPrefix sid) with
      | true =>
          by_cases hk : e.1 = k
          · simp [markClient, dlookup, hs, hk, h] at ih ⊢
          · simp [markClient, dlookup, hs, hk] at ih ⊢; exact ih
      | false =>
          by_cases hk : e.1 = k
          · rw [hk] at hs; rw [hs] at h; cases h
          · simp [markClient, dlookup, hs, hk] at ih ⊢; exact ih

theorem dlookup_markClient_neg (m : Dict Session) (sid k : String)
    (h : strStartsWith k (clientPrefix sid) = false) :
    dlookup (markClient m sid) k = dlookup m k := by
  induction m with
  | nil => simp [markClient, dlookup]
  | cons e rest ih =>
      cases hs : strStartsWith e.1 (clientPrefix sid) with
      | true =>
          by_cases hk : e.1 = k
          · rw [hk] at hs; rw [hs] at h; cases h
          · simp [markClient, dlookup, hs, hk] at ih ⊢; exact ih
      | false =>
          by_cases hk : e.1 = k
          · simp [markClient, dlookup, hs, hk, h]
          · simp [markClient, dlookup, hs, hk] at ih ⊢; exact ih

theorem dlookup_removeClient_pos (m : Dict Session) (sid k : String)
    (h : strStartsWith k (clientPrefix sid) = true) :
    dlookup (removeClient m sid) k = none := by
  induction m with
  | nil => simp [removeClient, dlookup]
  | cons e rest ih =>
      cases hs : strStartsWith e.1 (clientPrefix sid) with
      | true => simp [removeClient, dlookup, hs] at ih ⊢; exact ih
      | false =>
          have hk : e.1 ≠ k := by
            intro hk; rw [hk] at hs; rw [hs] at h; cases h
          simp [removeClient, dlookup, hs, hk] at ih ⊢; exact ih

theorem dlookup_removeClient_neg (m : Dict Session) (sid k : String)
    (h : strStartsWith k (clientPrefix sid) = false) :
    dlookup (removeClient m sid) k = dlookup m k := by
  induction m with
  | nil => simp [removeClient, dlookup]
  | cons e rest ih =>
      cases hs : strStartsWith e.1 (clientPrefix sid) with
      | true =>
          by_cases hk : e.1 = k
          · rw [hk] at hs; rw [hs] at h; cases h
          · simp [removeClient, dlookup, hs, hk] at ih ⊢; exact ih
      | false =>
          by_cases hk : e.1 = k
          · simp [removeClient, dlookup, hs, hk, h]
          · simp [removeClient, dlookup, hs, hk] at ih ⊢; exact ih

theorem isPrefixOf_append (l t : List Char) : l.isPrefixOf (l ++ t) = true := by
  induction l with
  | nil => simp [List.isPrefixOf]
  | cons a as ih => simp [List.isPrefixOf, ih]

/-- Every key built by `streamKey sid cid` belongs to client `sid` in the
sense used by `cleanup_client_streams`. -/
theorem streamKey_startsWith (sid cid : String) :
    strStartsWith (streamKey sid cid) (clientPrefix sid) = true := by
  show (clientPrefix sid).data.isPrefixOf (streamKey sid cid).data = true
  have h1 : (streamKey sid cid).data = (clientPrefix sid).data ++ cid.data := by
    simp [streamKey, clientPrefix]
  rw [h1]
  exact isPrefixOf_append _ _

theorem mem_infix_left {xs m : List String} (l : List String) (h : xs <:+: m) :
    xs <:+: l ++ m :=
  h.trans (List.suffix_append l m).isInfix

theorem mem_infix_right {xs m : List String} (r : List String) (h : xs <:+: m) :
    xs <:+: m ++ r :=
  h.trans (List.prefix_append m r).isInfix

theorem flatMap_infix_of_mem {α : Type} (f : α → List String) (l : List α) (x : α)
    (hx : x ∈ l) : f x <:+: l.flatMap f := by
  induction l with
  | nil => cases hx
  | cons a as ih =>
      rcases List.mem_cons.mp hx with h | h
      · subst h
        rw [List.flatMap_cons]
        exact (List.prefix_append _ _).isInfix
      · rw [List.flatMap_cons]
        exact mem_infix_left _ (ih h)

/-- The flags section of the reconstructed run command (everything between
`["run", "-d"]` and the image reference). -/
def run_cmd_flags (s : StateInfo) : List String :=
  (if s.name ≠ "" then ["--name", s.name] else [])
  ++ (if s.hostname ≠ "" then ["--hostname", s.hostname] else [])
  ++ (if s.work_dir ≠ "" ∧ s.work_dir ≠ "/" then ["--workdir", s.work_dir] else [])
  ++ (s.env.flatMap fun kv => ["--env", kv.1 ++ "=" ++ kv.2])
  ++ (s.volumes.flatMap fun hc => ["--volume", hc.1 ++ ":" ++ hc.2])
  ++ (s.port_mappings.flatMap port_flag)
  ++ (if s.network_mode ≠ "" ∧ s.network_mode ≠ "bridge" then ["--network", s.network_mode] else [])
  ++ (if s.memory ≠ "" then ["--memory", s.memory] else [])
  ++ (if s.cpus ≠ "" then ["--cpus", s.cpus] else [])

theorem build_run_command_decompose (s : StateInfo) :
    build_run_command s =
      ["run", "-d"] ++ run_cmd_flags s ++ [s.image]
        ++ (if s.command ≠ "" then [s.command] else []) ++ s.args := by
  simp [build_run_command, run_cmd_flags, List.append_assoc]

/-- The record of the spec's round-trip test: volumes `/host:/data`,
env `FOO=bar`, image `alpine`, everything else absent. -/
def c3_record : StateInfo :=
  ⟨"", "", "", "", [("FOO", "bar")], [("/host", "/data")], [], "", "", "", "alpine", "", []⟩

/-- Claim C3: the Configuration Reconstructor emits flags only for
non-default fields — every environment entry appears as
`--env KEY=VALUE` and every volume mapping as `--volume HOST:CONTAINER` —
then the image reference, then the original command and arguments verbatim;
for the record with volumes `/host:/data`, env `FOO=bar` and image `alpine`
the generated vector contains `--volume /host:/data` and `--env FOO=bar` and
ends with `alpine`, and a record with no optional fields produces no flags
at all. -/
theorem C3_reconstructed_args :
    (∀ s : StateInfo, ∀ kv ∈ s.env,
        ["--env", kv.1 ++ "=" ++ kv.2] <:+: build_run_command s)
    ∧ (∀ s : StateInfo, ∀ hc ∈ s.volumes,
        ["--volume", hc.1 ++ ":" ++ hc.2] <:+: build_run_command s)
    ∧ (∀ s : StateInfo,
        build_run_command s =
          ["run", "-d"] ++ run_cmd_flags s ++ [s.image]
            ++ (if s.command ≠ "" then [s.command] else []) ++ s.args)
    ∧ (∀ img : String,
        build_run_command ⟨"", "", "", "", [], [], [], "", "", "", img, "", []⟩
          = ["run", "-d", img])
    ∧ (["--volume", "/host:/data"] <:+: build_run_command c3_record
        ∧ ["--env", "FOO=bar"] <:+: build_run_command c3_record
        ∧ (build_run_command c3_record).getLast? = some "alpine") := by
  refine ⟨?_, ?_, build_run_command_decompose, ?_, ?_, ?_, ?_⟩
  · intro s kv hkv
    have h1 : ["--env", kv.1 ++ "=" ++ kv.2]
        <:+: s.env.flatMap fun kv => ["--env", kv.1 ++ "=" ++ kv.2] :=
      flatMap_infix_of_mem (fun kv => ["--env", kv.1 ++ "=" ++ kv.2]) s.env kv hkv
    have h2 : ["--env", kv.1 ++ "=" ++ kv.2] <:+: run_cmd_flags s := by
      unfold run_cmd_flags
      exact mem_infix_right _ (mem_infix_right _ (mem_infix_right _ (mem_infix_right _
        (mem_infix_right _ (mem_infix_left _ h1)))))
    rw [build_run_command_decompose s]
    exact mem_infix_right _ (mem_infix_right _ (mem_infix_right _ (mem_infix_left _ h2)))
  · intro s hc hhc
    have h1 : ["--volume", hc.1 ++ ":" ++ hc.2]
        <:+: s.volumes.flatMap fun hc => ["--volume", hc.1 ++ ":" ++ hc.2] :=
      flatMap_infix_of_mem (fun hc => ["--volume", hc.1 ++ ":" ++ hc.2]) s.volumes hc hhc
    have h2 : ["--volume", hc.1 ++ ":" ++ hc.2] <:+: run_cmd_flags s := by
      unfold run_cmd_flags
      exact mem_infix_right _ (mem_infix_right _ (mem_infix_right _ (mem_infix_right _
        (mem_infix_left _ h1))))
    rw [build_run_command_decompose s]
    exact mem_infix_right _ (mem_infix_right _ (mem_infix_right _ (mem_infix_left _ h2)))
  · intro img
    simp [build_run_command]
  · decide
  · decide
  · decide

/-- Claim C3 witness: the general conjuncts applied to the concrete
round-trip record. -/
theorem C3_reconstructed_args_witness :
    ["--env", "FOO" ++ "=" ++ "bar"] <:+: build_run_command c3_record
    ∧ ["--volume", "/host" ++ ":" ++ "/data"] <:+: build_run_command c3_record :=
  ⟨C3_reconstructed_args.1 c3_record ("FOO", "bar") (by decide),
   C3_reconstructed_args.2.1 c3_record ("/host", "/data") (by decide)⟩

/-- Claim C4: when no launch-configuration record matches a unit, the
relaunch fails with the state-not-found `ServinError` and the runtime is
never asked to `rm` or `run` anything (the only invocation issued is the
`ls -d` listing behind the status check); the state store is read-only
throughout `start_container`. -/
theorem C4_start_container_no_state (env : StartEnv) (cid : String)
    (hstate : get_container_state env.store cid = none) :
    (∃ e, (start_container env cid).1 = Except.error e)
    ∧ (∀ c ∈ (start_container env cid).2, c.head? ≠ some "rm" ∧ c.head? ≠ some "run")
    ∧ (∀ c, get_container env.containers cid = Except.ok c → c.status ≠ "running" →
        (start_container env cid).1 =
          Except.error ("Failed to start container: Could not find state information for container "
            ++ cid)) := by
  cases hg : get_container env.containers cid with
  | error e =>
      have hsc : start_container env cid
          = (Except.error ("Failed to start container: " ++ e), [["ls", "-d"]]) := by
        simp [start_container, hg]
      refine ⟨⟨"Failed to start container: " ++ e, by simp [hsc]⟩, ?_, ?_⟩
      · intro c hc
        rw [hsc] at hc
        simp only [List.mem_singleton] at hc
        subst hc
        exact ⟨by decide, by decide⟩
      · intro c hc
        cases hc
  | ok c =>
      by_cases hr : c.status = "running"
      · have hsc : start_container env cid
            = (Except.error ("Failed to start container: Container " ++ cid
                ++ " is already running"), [["ls", "-d"]]) := by
          simp [start_container, hg, hr]
        refine ⟨⟨"Failed to start container: Container " ++ cid ++ " is already running",
            by simp [hsc]⟩, ?_, ?_⟩
        · intro c' hc'
          rw [hsc] at hc'
          simp only [List.mem_singleton] at hc'
          subst hc'
          exact ⟨by decide, by decide⟩
        · intro c' hc' hrun
          injection hc' with h
          subst h
          exact absurd hr hrun
      · have hsc : start_container env cid
            = (Except.error ("Failed to start container: Could not find state information for container "
                ++ cid), [["ls", "-d"]]) := by
          simp [start_container, hg, hr, hstate]
        refine ⟨⟨"Failed to start container: Could not find state information for container "
            ++ cid, by simp [hsc]⟩, ?_, ?_⟩
        · intro c' hc'
          rw [hsc] at hc'
          simp only [List.mem_singleton] at hc'
          subst hc'
          exact ⟨by decide, by decide⟩
        · intro c' hc' hrun
          simp [hsc]

/-- Claim C4 witness: a concrete environment with an empty state store. -/
theorem C4_start_container_no_state_witness :
    (∃ e, (start_container ⟨false, [⟨"c1", "web", "exited"⟩], [], .timedOut, .timedOut⟩ "c1").1
        = Except.error e)
    ∧ (∀ c ∈ (start_container ⟨false, [⟨"c1", "web", "exited"⟩], [], .timedOut, .timedOut⟩ "c1").2,
        c.head? ≠ some "rm" ∧ c.head? ≠ some "run") := by
  have h := C4_start_container_no_state
    ⟨false, [⟨"c1", "web", "exited"⟩], [], .timedOut, .timedOut⟩ "c1" (by decide)
  exact ⟨h.1, h.2.1⟩

/-- Claim C5: the Process Invoker always applies the 30-second bound and
turns its expiry into a `ServinError`; a completed child process is returned
as a normal value whatever its exit code, and `exec_command` likewise treats
a non-zero exit code of the command itself as a normal result
(`stdout + stderr`), not a raise. -/
theorem C5_run_command_contract :
    (∀ (isD : Bool) (args : List String),
        run_command isD args .timedOut =
          Except.error ("Command timed out: "
            ++ String.intercalate " " (run_cmd_args isD args)))
    ∧ RUN_TIMEOUT = 30
    ∧ (∀ (isD : Bool) (args : List String) (r : CompletedProcess), r.returncode ≠ 0 →
        run_command isD args (.completed r) = Except.ok r)
    ∧ (∀ (isD : Bool) (cid command : String) (r : CompletedProcess),
        r.returncode ≠ 0 →
        strContains (strLower r.stderr) "no such container" = false →
        exec_command isD cid command (.completed r) = Except.ok (r.stdout ++ r.stderr)) := by
  refine ⟨fun _ _ => rfl, rfl, fun _ _ _ _ => rfl, ?_⟩
  intro isD cid command r h1 h2
  simp [exec_command, run_command, h1, h2]

/-- Claim C5 witness: a timed-out invocation and a completed invocation with
exit code 2. -/
theorem C5_run_command_contract_witness :
    run_command false ["ls"] .timedOut = Except.error "Command timed out: ls"
    ∧ run_command false ["ls"] (.completed ⟨2, "", "boom"⟩) = Except.ok ⟨2, "", "boom"⟩
    ∧ exec_command false "c1" "ls" (.completed ⟨2, "out", "err"⟩) = Except.ok ("out" ++ "err") := by
  refine ⟨?_, C5_run_command_contract.2.2.1 false ["ls"] ⟨2, "", "boom"⟩ (by decide),
    C5_run_command_contract.2.2.2 false "c1" "ls" ⟨2, "out", "err"⟩ (by decide) (by decide)⟩
  have h := C5_run_command_contract.1 false ["ls"]
  simpa [run_cmd_args] using h

/-- Claim C7 counterexample: at the empty unit identifier — under which no
exec session exists in the (empty) registry — `exec_input` fails with the
payload-validation error `Container ID required` (app.py:671-673), not with
the `No active exec session` error the claim requires for every unit
identifier; the state is still unchanged. -/
theorem C7_empty_unit_id_validation :
    handle_exec_input ⟨[], []⟩ "A" "" "ls"
      = (⟨[], []⟩, [⟨.error, "Container ID required"⟩])
    ∧ dlookup (GuiState.mk [] []).active_exec_sessions (streamKey "A" "") = none
    ∧ [(⟨.error, "Container ID required"⟩ : Msg)]
        ≠ [(⟨.error, "No active exec session"⟩ : Msg)] := by
  decide

/-- Claim C7 (amended): for every client, every non-empty unit identifier
and every input text, `exec_input` against a key with no registered exec
session emits the `No active exec session` error and has no side effects —
the returned state is exactly the input state (both registries, every stop
flag, every input queue); at the empty unit identifier the handler's payload
validation rejects the request earlier with `Container ID required`,
likewise with no side effects. -/
theorem C7_exec_input_no_session (st : GuiState) (sid cid command : String) :
    (cid ≠ "" → dlookup st.active_exec_sessions (streamKey sid cid) = none →
      handle_exec_input st sid cid command
        = (st, [⟨.error, "No active exec session"⟩]))
    ∧ (cid = "" → handle_exec_input st sid cid command
        = (st, [⟨.error, "Container ID required"⟩])) := by
  constructor
  · intro hcid h
    simp [handle_exec_input, hcid, h]
  · intro hcid
    simp [handle_exec_input, hcid]

/-- Claim C7 witness: concrete empty registries with unit id `c1`. -/
theorem C7_exec_input_no_session_witness :
    handle_exec_input ⟨[], []⟩ "A" "c1" "ls"
      = (⟨[], []⟩, [⟨.error, "No active exec session"⟩]) :=
  (C7_exec_input_no_session ⟨[], []⟩ "A" "c1" "ls").1 (by decide) (by decide)

/-- Claim C10: `get_logs` is total over its error cases and never raises:
whatever the invocation outcome — missing container, failing command,
timeout — every raised exception is converted into a human-readable fallback
string, so a caller cannot distinguish the cases by exception. -/
theorem C10_get_logs_never_raises (isD : Bool) (cid : String) (tail : Nat)
    (outcome : InvokeOutcome) :
    (∀ e, get_logs_try isD cid tail outcome = Except.error e →
        get_logs isD cid tail outcome = logs_unavailable_fallback cid e)
    ∧ (∀ s, get_logs_try isD cid tail outcome = Except.ok s →
        get_logs isD cid tail outcome = s)
    ∧ (outcome = .timedOut →
        get_logs isD cid tail outcome =
          logs_unavailable_fallback cid
            ("Command timed out: "
              ++ String.intercalate " " (run_cmd_args isD (get_logs_args cid tail))))
    ∧ (∀ r, outcome = .completed r → r.returncode ≠ 0 →
        strContains (strLower r.stderr) "no such container" = true →
        get_logs isD cid tail outcome =
          logs_unavailable_fallback cid ("Container " ++ cid ++ " not found")) := by
  refine ⟨?_, ?_, ?_, ?_⟩
  · intro e he
    simp [get_logs, he]
  · intro s hs
    simp [get_logs, hs]
  · intro h
    subst h
    simp [get_logs, get_logs_try, run_command]
  · intro r h hrc hns
    subst h
    simp [get_logs, get_logs_try, run_command, hrc, hns]

/-- Claim C10 witness: a timed-out fetch and a `no such container` failure
both yield the fallback string. -/
theorem C10_get_logs_never_raises_witness :
    get_logs false "c1" 100 .timedOut =
      logs_unavailable_fallback "c1"
        ("Command timed out: "
          ++ String.intercalate " " (run_cmd_args false (get_logs_args "c1" 100)))
    ∧ get_logs false "c1" 100 (.completed ⟨1, "", "Error: no such container c1"⟩) =
      logs_unavailable_fallback "c1" ("Container " ++ "c1" ++ " not found") :=
  ⟨(C10_get_logs_never_raises false "c1" 100 .timedOut).2.2.1 rfl,
   (C10_get_logs_never_raises false "c1" 100
      (.completed ⟨1, "", "Error: no such container c1"⟩)).2.2.2
      ⟨1, "", "Error: no such container c1"⟩ rfl (by decide) (by decide)⟩

/-- Claim C6: disconnecting a client removes exactly that client's sessions
from both registries — every session whose key carries the client's prefix
is marked `stop := true` (phase one) before being deleted (phase two) —
while sessions of every other key keep the same binding (same stop flag,
same input queue); keys built by `streamKey` always carry their client's
prefix. -/
theorem C6_disconnect_cleanup (st : GuiState) (sid : String) :
    (cleanup_client_streams st sid =
      ⟨removeClient (markClient st.active_log_streams sid) sid,
       removeClient (markClient st.active_exec_sessions sid) sid⟩)
    ∧ (∀ k, strStartsWith k (clientPrefix sid) = true →
        dlookup (cleanup_client_streams st sid).active_log_streams k = none
        ∧ dlookup (cleanup_client_streams st sid).active_exec_sessions k = none)
    ∧ (∀ k, strStartsWith k (clientPrefix sid) = false →
        dlookup (cleanup_client_streams st sid).active_log_streams k
            = dlookup st.active_log_streams k
        ∧ dlookup (cleanup_client_streams st sid).active_exec_sessions k
            = dlookup st.active_exec_sessions k)
    ∧ (∀ k s, strStartsWith k (clientPrefix sid) = true →
        dlookup st.active_log_streams k = some s →
        dlookup (markClient st.active_log_streams sid) k = some ⟨true, s.input_queue⟩)
    ∧ (∀ k s, strStartsWith k (clientPrefix sid) = true →
        dlookup st.active_exec_sessions k = some s →
        dlookup (markClient st.active_exec_sessions sid) k = some ⟨true, s.input_queue⟩)
    ∧ (∀ cid, strStartsWith (streamKey sid cid) (clientPrefix sid) = true) := by
  refine ⟨rfl, ?_, ?_, ?_, ?_, streamKey_startsWith sid⟩
  · intro k hk
    exact ⟨dlookup_removeClient_pos _ _ _ hk, dlookup_removeClient_pos _ _ _ hk⟩
  · intro k hk
    constructor
    · rw [show (cleanup_client_streams st sid).active_log_streams
          = removeClient (markClient st.active_log_streams sid) sid from rfl]
      rw [dlookup_removeClient_neg _ _ _ hk, dlookup_markClient_neg _ _ _ hk]
    · rw [show (cleanup_client_streams st sid).active_exec_sessions
          = removeClient (markClient st.active_exec_sessions sid) sid from rfl]
      rw [dlookup_removeClient_neg _ _ _ hk, dlookup_markClient_neg _ _ _ hk]
  · intro k s hk hs
    rw [dlookup_markClient_pos _ _ _ hk, hs]
    rfl
  · intro k s hk hs
    rw [dlookup_markClient_pos _ _ _ hk, hs]
    rfl

/-- Claim C6 witness: client `A` owns a log and an exec session, client `B`
owns a log session; disconnecting `A` removes exactly `A`'s sessions and
leaves `B`'s binding untouched. -/
theorem C6_disconnect_cleanup_witness :
    dlookup (cleanup_client_streams
        ⟨[("A:c1", ⟨false, []⟩), ("B:c1", ⟨false, []⟩)], [("A:c2", ⟨false, ["ls"]⟩)]⟩
        "A").active_log_streams "A:c1" = none
    ∧ dlookup (cleanup_client_streams
        ⟨[("A:c1", ⟨false, []⟩), ("B:c1", ⟨false, []⟩)], [("A:c2", ⟨false, ["ls"]⟩)]⟩
        "A").active_log_streams "B:c1"
      = dlookup [("A:c1", (⟨false, []⟩ : Session)), ("B:c1", ⟨false, []⟩)] "B:c1"
    ∧ dlookup (markClient [("A:c2", (⟨false, ["ls"]⟩ : Session))] "A") "A:c2"
      = some ⟨true, ["ls"]⟩ :=
  ⟨((C6_disconnect_cleanup ⟨[("A:c1", ⟨false, []⟩), ("B:c1", ⟨false, []⟩)],
      [("A:c2", ⟨false, ["ls"]⟩)]⟩ "A").2.1 "A:c1" (by decide)).1,
   ((C6_disconnect_cleanup ⟨[("A:c1", ⟨false, []⟩), ("B:c1", ⟨false, []⟩)],
      [("A:c2", ⟨false, ["ls"]⟩)]⟩ "A").2.2.1 "B:c1" (by decide)).1,
   (C6_disconnect_cleanup ⟨[], [("A:c2", ⟨false, ["ls"]⟩)]⟩ "A").2.2.2.2.1
      "A:c2" ⟨false, ["ls"]⟩ (by decide) (by decide)⟩

theorem followLogs_types (key : String) (script : List LogIter) :
    ∀ m ∈ (followLogs key script).1, m.type = .stream ∨ m.type = .error := by
  induction script with
  | nil => intro m hm; cases hm
  | cons it rest ih =>
      intro m hm
      by_cases hstop : observedStop it.reg key = true
      · simp [followLogs, hstop] at hm
      · simp only [Bool.not_eq_true] at hstop
        cases hev : it.ev with
        | exited => simp [followLogs, hstop, hev] at hm
        | line s =>
            simp only [followLogs, hstop, hev, Bool.false_eq_true, if_false,
              List.mem_cons] at hm
            rcases hm with h | h
            · subst h; exact Or.inl rfl
            · exact ih m h
        | idle =>
            simp only [followLogs, hstop, hev, Bool.false_eq_true, if_false] at hm
            exact ih m hm
        | raised e =>
            simp only [followLogs, hstop, hev, Bool.false_eq_true, if_false,
              List.mem_singleton] at hm
            subst hm; exact Or.inr rfl

theorem followLogs_no_raise (key : String) (script : List LogIter)
    (hnr : ∀ it ∈ script, ∀ m, it.ev ≠ .raised m) :
    ∀ m ∈ (followLogs key script).1, m.type = .stream := by
  induction script with
  | nil => intro m hm; cases hm
  | cons it rest ih =>
      intro m hm
      by_cases hstop : observedStop it.reg key = true
      · simp [followLogs, hstop] at hm
      · simp only [Bool.not_eq_true] at hstop
        cases hev : it.ev with
        | exited => simp [followLogs, hstop, hev] at hm
        | line s =>
            simp only [followLogs, hstop, hev, Bool.false_eq_true, if_false,
              List.mem_cons] at hm
            rcases hm with h | h
            · subst h; rfl
            · exact ih (fun i hi => hnr i (List.mem_cons_of_mem _ hi)) m h
        | idle =>
            simp only [followLogs, hstop, hev, Bool.false_eq_true, if_false] at hm
            exact ih (fun i hi => hnr i (List.mem_cons_of_mem _ hi)) m hm
        | raised e =>
            exact absurd hev (hnr it (List.mem_cons_self _ _) e)

/-- Claim C8: an accepted log-stream start fetches the unit's history
through exactly one Process Invoker call — the `logs --tail 100` command,
the tail count being the caller-supplied 100, which is also `get_logs`'s
declared default — and emits it as the single `initial`-typed batch at the
head of the worker's message sequence, before any `stream`-typed message. -/
theorem C8_initial_history (isD : Bool) (cid key : String)
    (historyOutcome : InvokeOutcome) (script : List LogIter) :
    (stream_logs_run isD cid key historyOutcome script).2.1
        = [run_cmd_args isD (get_logs_args cid STREAM_LOGS_TAIL)]
    ∧ STREAM_LOGS_TAIL = 100
    ∧ GET_LOGS_DEFAULT_TAIL = 100
    ∧ get_logs_args cid STREAM_LOGS_TAIL = ["logs", cid, "--tail", "100"]
    ∧ (stream_logs_run isD cid key historyOutcome script).1.head?
        = some ⟨.initial, get_logs isD cid STREAM_LOGS_TAIL historyOutcome⟩
    ∧ ((stream_logs_run isD cid key historyOutcome script).1.filter
        fun m => m.type = MsgType.initial).length = 1 := by
  refine ⟨rfl, rfl, rfl, ?_, rfl, ?_⟩
  · have h100 : Nat.repr 100 = "100" := rfl
    simp [get_logs_args, STREAM_LOGS_TAIL, h100]
  · have hnone : ((followLogs key script).1.filter
        fun m => m.type = MsgType.initial) = [] := by
      rw [List.filter_eq_nil_iff]
      intro m hm
      rcases followLogs_types key script m hm with h | h <;> simp [h]
    simp [stream_logs_run, List.filter_cons, hnone]

/-- Claim C2, evaluated at the failing input: client `A` sends `start_logs`
for container `c1` twice.  The facade does set the pre-existing session
dict's stop flag and does re-register the key with a fresh session — the
registry holds exactly one entry for the key afterwards — but the flag it
set lives in an object the first worker never reads: that worker polls the
registry entry for its key, which now holds the fresh `stop=False` session,
so its next iteration still emits a `stream` message (two concurrent workers
now serve the key), and when the first worker eventually exits, its cleanup
deletes the second session's registry entry. -/
theorem C2_preemption_ineffective :
    dlookup (markStop (handle_start_logs ⟨[], []⟩ "A" "c1").active_log_streams
        (streamKey "A" "c1")) (streamKey "A" "c1") = some ⟨true, []⟩
    ∧ (handle_start_logs (handle_start_logs ⟨[], []⟩ "A" "c1") "A" "c1").active_log_streams
        = [(streamKey "A" "c1", ⟨false, []⟩)]
    ∧ observedStop
        (handle_start_logs (handle_start_logs ⟨[], []⟩ "A" "c1") "A" "c1").active_log_streams
        (streamKey "A" "c1") = false
    ∧ followLogs (streamKey "A" "c1")
        [⟨(handle_start_logs (handle_start_logs ⟨[], []⟩ "A" "c1") "A" "c1").active_log_streams,
          .line "dup"⟩]
        = ([⟨.stream, "dup"⟩], false)
    ∧ derase
        (handle_start_logs (handle_start_logs ⟨[], []⟩ "A" "c1") "A" "c1").active_log_streams
        (streamKey "A" "c1") = [] := by
  decide

/-- Claim C1 counterexample: a log-stream session for container `c1`,
started and then stopped by client `A`, ends — the follow loop exits via the
observed stop flag and the `finally` blocks emit nothing — yet the worker's
whole message sequence is the single `initial` batch: it does not end with a
`system`/`error` terminal message. -/
theorem C1_log_session_no_terminal :
    stream_logs_run false "c1" (streamKey "A" "c1") (.completed ⟨0, "hello\n", ""⟩)
        [⟨(handle_stop_logs (handle_start_logs ⟨[], []⟩ "A" "c1") "A" "c1").active_log_streams,
          .idle⟩]
      = ([⟨.initial, "hello\n"⟩], [["logs", "c1", "--tail", "100"]], true)
    ∧ ([(⟨.initial, "hello\n"⟩ : Msg)].filter
        fun m => m.type = MsgType.system ∨ m.type = MsgType.error) = [] := by
  decide

theorem execStep_trace_halted (sid cid : String) (st : ExecSim) (ev : ExecEv)
    (h : st.halted = true) :
    (execStep sid cid st ev).trace = st.trace
    ∧ (execStep sid cid st ev).halted = true := by
  cases ev with
  | input cmd =>
      cases hd : dlookup st.reg (streamKey sid cid) <;> simp [execStep, hd, h]
  | stopReq =>
      by_cases hd : (dlookup st.reg (streamKey sid cid)).isSome <;> simp [execStep, hd, h]
  | disconnect => simp [execStep, h]
  | iter pe rd => simp [execStep, h]
  | iterRaise m => simp [execStep, h]

theorem execStep_ends (sid cid : String) (st : ExecSim) (ev : ExecEv)
    (h : st.halted = true → st.trace.getLast? = some execEndedMsg) :
    (execStep sid cid st ev).halted = true →
      (execStep sid cid st ev).trace.getLast? = some execEndedMsg := by
  cases ev with
  | input cmd =>
      intro hx
      have hd := execStep_trace_halted sid cid st (.input cmd)
      cases hdl : dlookup st.reg (streamKey sid cid) with
      | none => simp only [execStep, hdl] at hx ⊢; exact h hx
      | some s => simp only [execStep, hdl] at hx ⊢; exact h hx
  | stopReq =>
      intro hx
      by_cases hd : (dlookup st.reg (streamKey sid cid)).isSome <;>
        simp only [execStep, hd, if_true, if_false] at hx ⊢ <;> exact h hx
  | disconnect =>
      intro hx
      simp only [execStep] at hx ⊢
      exact h hx
  | iter pe rd =>
      cases hh : st.halted with
      | true => simp only [execStep, hh, if_true, cond_true]; exact fun _ => h hh
      | false =>
          cases hs : observedStop st.reg (streamKey sid cid) with
          | true =>
              intro hx
              simp [execStep, hh, hs, execFinish, List.getLast?_concat]
          | false =>
              intro hx
              rcases hq : ((dlookup st.reg (streamKey sid cid)).getD ⟨false, []⟩).input_queue
                with _ | ⟨c, rest⟩ <;>
                cases pe <;>
                rcases rd with _ | l <;>
                simp_all [execStep, execFinish, List.getLast?_concat] <;>
                by_cases hl : l = "" <;>
                simp_all
  | iterRaise m =>
      cases hh : st.halted with
      | true => simp only [execStep, hh, if_true, cond_true]; exact fun _ => h hh
      | false =>
          cases hs : observedStop st.reg (streamKey sid cid) with
          | true =>
              intro hx
              simp [execStep, hh, hs, execFinish, List.getLast?_concat]
          | false =>
              intro hx
              simp [execStep, hh, hs, execFinish, List.getLast?_concat]

/-- Claim C1 (amended): once the stop flag is observed the workers emit no
further `stream`/`output` messages — a log-stream iteration that observes it
emits nothing more, and an exec iteration that observes it emits only the
terminal `system` message.  Exec sessions always end with exactly one
terminal message: once the worker has halted, its trace ends with the
`Exec session ended.` `system` message and later steps append nothing.  But
log-stream sessions have no terminal message on the normal paths: every
message of a run free of exceptions is typed `initial` or `stream`, so a
client whose log session ends by stop or subprocess exit receives no
`system`/`error` terminal message (only the exception path emits `error`). -/
theorem C1_amended_stop_and_terminal :
    (∀ (isD : Bool) (cid key : String) (h : InvokeOutcome) (script : List LogIter),
        (∀ it ∈ script, ∀ m, it.ev ≠ .raised m) →
        ∀ msg ∈ (stream_logs_run isD cid key h script).1,
          msg.type = .initial ∨ msg.type = .stream)
    ∧ (∀ (key : String) (it : LogIter) (rest : List LogIter),
        observedStop it.reg key = true → followLogs key (it :: rest) = ([], true))
    ∧ (∀ (sid cid shell : String) (script : List ExecEv),
        (execRun sid cid shell script).halted = true →
        (execRun sid cid shell script).trace.getLast? = some execEndedMsg)
    ∧ (∀ (sid cid : String) (st : ExecSim) (pe : Bool) (rd : Option String),
        st.halted = false → observedStop st.reg (streamKey sid cid) = true →
        execStep sid cid st (.iter pe rd) = execFinish (streamKey sid cid) [] st)
    ∧ (∀ (sid cid : String) (st : ExecSim) (ev : ExecEv), st.halted = true →
        (execStep sid cid st ev).trace = st.trace
        ∧ (execStep sid cid st ev).halted = true) := by
  refine ⟨?_, ?_, ?_, ?_, execStep_trace_halted⟩
  · intro isD cid key h script hnr msg hmsg
    simp only [stream_logs_run, List.mem_cons] at hmsg
    rcases hmsg with hm | hm
    · subst hm; exact Or.inl rfl
    · exact Or.inr (followLogs_no_raise key script hnr msg hm)
  · intro key it rest h
    simp [followLogs, h]
  · intro sid cid shell script
    suffices hgen : ∀ (l : List ExecEv) (st : ExecSim),
        (st.halted = true → st.trace.getLast? = some execEndedMsg) →
        ((l.foldl (execStep sid cid) st).halted = true →
          (l.foldl (execStep sid cid) st).trace.getLast? = some execEndedMsg) by
      intro hh
      exact hgen script (execInit sid cid shell)
        (fun hx => by simp [execInit] at hx) hh
    intro l
    induction l with
    | nil => intro st h; exact h
    | cons e es ih => intro st h; exact ih _ (execStep_ends sid cid st e h)
  · intro sid cid st pe rd h1 h2
    simp [execStep, h1, h2]

/-- Claim C1 witness: a stopped exec session really halts with the terminal
`system` message, and the concrete one-batch log run instantiates the
no-exception conjunct. -/
theorem C1_amended_stop_and_terminal_witness :
    ((execRun "B" "c1" "/bin/sh" [.stopReq, .iter false none]).halted = true
      ∧ (execRun "B" "c1" "/bin/sh" [.stopReq, .iter false none]).trace.getLast?
          = some execEndedMsg)
    ∧ ((⟨.initial, "hello"⟩ : Msg).type = .initial
        ∨ (⟨.initial, "hello"⟩ : Msg).type = .stream) :=
  ⟨⟨by decide,
    C1_amended_stop_and_terminal.2.2.1 "B" "c1" "/bin/sh"
      [.stopReq, .iter false none] (by decide)⟩,
   C1_amended_stop_and_terminal.1 false "c1" "k" (.completed ⟨0, "hello", ""⟩)
     [⟨[], .idle⟩]
     (by intro it hit m
         simp only [List.mem_singleton] at hit
         subst hit
         simp)
     ⟨.initial, "hello"⟩ (by decide)⟩

theorem inputEchoes_append (a b : List Msg) :
    inputEchoes (a ++ b) = inputEchoes a ++ inputEchoes b := by
  simp [inputEchoes, List.filterMap_append]

/-- The state invariant behind the exec-session FIFO guarantee: the lines
written to the child are a prefix of the inputs the facade accepted; the
pending queue is exactly the accepted inputs not yet written; the `input`
echoes in the trace are precisely the written lines, in order. -/
def ExecInv (sid cid : String) (st : ExecSim) : Prop :=
  st.writes <+: st.accepted
  ∧ (∀ s, dlookup st.reg (streamKey sid cid) = some s →
      st.writes ++ s.input_queue = st.accepted)
  ∧ inputEchoes st.trace = st.writes.map (fun c => c ++ "\n")

theorem execFinish_inv (sid cid : String) (st : ExecSim) (extra : List Msg)
    (hex : inputEchoes extra = [])
    (h1 : st.writes <+: st.accepted)
    (h3 : inputEchoes st.trace = st.writes.map (fun c => c ++ "\n")) :
    ExecInv sid cid (execFinish (streamKey sid cid) extra st) := by
  refine ⟨h1, ?_, ?_⟩
  · intro s hs
    have hs' : dlookup (derase st.reg (streamKey sid cid)) (streamKey sid cid)
        = some s := hs
    rw [dlookup_derase_self] at hs'
    cases hs'
  · show inputEchoes (st.trace ++ extra ++ [execEndedMsg]) = _
    rw [inputEchoes_append, inputEchoes_append, hex]
    have hee : inputEchoes [execEndedMsg] = [] := rfl
    rw [hee]
    simpa using h3

theorem execStep_inv (sid cid : String) (st : ExecSim) (ev : ExecEv)
    (h : ExecInv sid cid st) : ExecInv sid cid (execStep sid cid st ev) := by
  obtain ⟨h1, h2, h3⟩ := h
  cases ev with
  | input cmd =>
      cases hd : dlookup st.reg (streamKey sid cid) with
      | none =>
          have hred : execStep sid cid st (.input cmd) = st := by
            simp [execStep, hd]
          rw [hred]
          exact ⟨h1, h2, h3⟩
      | some s =>
          have hred : execStep sid cid st (.input cmd)
              = { st with
                    reg := dinsert st.reg (streamKey sid cid)
                      { s with input_queue := s.input_queue ++ [cmd] },
                    accepted := st.accepted ++ [cmd] } := by
            simp [execStep, hd]
          rw [hred]
          refine ⟨h1.trans (List.prefix_append _ _), ?_, h3⟩
          intro s' hs'
          have hs'' : dlookup (dinsert st.reg (streamKey sid cid)
              { s with input_queue := s.input_queue ++ [cmd] }) (streamKey sid cid)
              = some s' := hs'
          rw [dlookup_dinsert_self] at hs''
          injection hs'' with he
          subst he
          show st.writes ++ (s.input_queue ++ [cmd]) = st.accepted ++ [cmd]
          rw [← List.append_assoc, h2 s hd]
  | stopReq =>
      by_cases hd : (dlookup st.reg (streamKey sid cid)).isSome
      · have hred : execStep sid cid st .stopReq
            = { st with reg := (derase (markStop st.reg (streamKey sid cid))
                  (streamKey sid cid)) } := by
          simp [execStep, hd]
        rw [hred]
        refine ⟨h1, ?_, h3⟩
        intro s hs
        have hs' : dlookup (derase (markStop st.reg (streamKey sid cid))
            (streamKey sid cid)) (streamKey sid cid) = some s := hs
        rw [dlookup_derase_self] at hs'
        cases hs'
      · have hred : execStep sid cid st .stopReq = st := by
          simp [execStep, hd]
        rw [hred]
        exact ⟨h1, h2, h3⟩
  | disconnect =>
      refine ⟨h1, ?_, h3⟩
      intro s hs
      have hs' : dlookup (removeClient (markClient st.reg sid) sid)
          (streamKey sid cid) = some s := hs
      rw [dlookup_removeClient_pos _ _ _ (streamKey_startsWith sid cid)] at hs'
      cases hs'
  | iter pe rd =>
      cases hh : st.halted with
      | true =>
          have hred : execStep sid cid st (.iter pe rd) = st := by
            simp [execStep, hh]
          rw [hred]
          exact ⟨h1, h2, h3⟩
      | false =>
          cases hs : observedStop st.reg (streamKey sid cid) with
          | true =>
              have hred : execStep sid cid st (.iter pe rd)
                  = execFinish (streamKey sid cid) [] st := by
                simp [execStep, hh, hs]
              rw [hred]
              exact execFinish_inv sid cid st [] rfl h1 h3
          | false =>
              obtain ⟨s0, hd, hstop⟩ : ∃ s0,
                  dlookup st.reg (streamKey sid cid) = some s0 ∧ s0.stop = false := by
                revert hs
                unfold observedStop
                cases hdl : dlookup st.reg (streamKey sid cid) with
                | none => intro hs; cases hs
                | some s0 => intro hs; exact ⟨s0, rfl, hs⟩
              rcases hq : s0.input_queue with _ | ⟨c, rest⟩
              · -- no queued input this iteration
                cases pe with
                | true =>
                    have hred : execStep sid cid st (.iter true rd)
                        = execFinish (streamKey sid cid) [] st := by
                      simp [execStep, hh, hs, hd, hq]
                    rw [hred]
                    exact execFinish_inv sid cid st [] rfl h1 h3
                | false =>
                    rcases rd with _ | l
                    · have hred : execStep sid cid st (.iter false none) = st := by
                        simp [execStep, hh, hs, hd, hq]
                      rw [hred]
                      exact ⟨h1, h2, h3⟩
                    · by_cases hl : l = ""
                      · have hred : execStep sid cid st (.iter false (some l)) = st := by
                          simp [execStep, hh, hs, hd, hq, hl]
                        rw [hred]
                        exact ⟨h1, h2, h3⟩
                      · have hred : execStep sid cid st (.iter false (some l))
                            = { st with trace := st.trace ++ [⟨.output, l⟩] } := by
                          simp [execStep, hh, hs, hd, hq, hl]
                        rw [hred]
                        refine ⟨h1, h2, ?_⟩
                        show inputEchoes (st.trace ++ [⟨.output, l⟩]) = _
                        rw [inputEchoes_append]
                        have hol : inputEchoes [⟨.output, l⟩] = [] := rfl
                        rw [hol]
                        simpa using h3
              · -- drain one input item: write it and echo it
                have hacc : st.writes ++ (c :: rest) = st.accepted := by
                  rw [← hq]; exact h2 s0 hd
                have hacc' : (st.writes ++ [c]) ++ rest = st.accepted := by
                  rw [List.append_assoc]
                  simpa using hacc
                have hpre : st.writes ++ [c] <+: st.accepted := ⟨rest, hacc'⟩
                have hech : inputEchoes (st.trace ++ [⟨.input, c ++ "\n"⟩])
                    = (st.writes ++ [c]).map (fun x => x ++ "\n") := by
                  rw [inputEchoes_append, h3]
                  simp [inputEchoes]
                have hq2 : ∀ s', dlookup (dinsert st.reg (streamKey sid cid)
                    { s0 with input_queue := rest }) (streamKey sid cid) = some s' →
                    (st.writes ++ [c]) ++ s'.input_queue = st.accepted := by
                  intro s' hs'
                  rw [dlookup_dinsert_self] at hs'
                  injection hs' with he
                  subst he
                  exact hacc'
                cases pe with
                | true =>
                    have hred : execStep sid cid st (.iter true rd)
                        = execFinish (streamKey sid cid) []
                            { st with
                                reg := dinsert st.reg (streamKey sid cid)
                                  { s0 with input_queue := rest },
                                writes := st.writes ++ [c],
                                trace := st.trace ++ [⟨.input, c ++ "\n"⟩] } := by
                      simp [execStep, hh, hs, hd, hq]
                    rw [hred]
                    exact execFinish_inv sid cid _ [] rfl hpre hech
                | false =>
                    rcases rd with _ | l
                    · have hred : execStep sid cid st (.iter false none)
                          = { st with
                                reg := dinsert st.reg (streamKey sid cid)
                                  { s0 with input_queue := rest },
                                writes := st.writes ++ [c],
                                trace := st.trace ++ [⟨.input, c ++ "\n"⟩] } := by
                        simp [execStep, hh, hs, hd, hq]
                      rw [hred]
                      exact ⟨hpre, hq2, hech⟩
                    · by_cases hl : l = ""
                      · have hred : execStep sid cid st (.iter false (some l))
                            = { st with
                                  reg := dinsert st.reg (streamKey sid cid)
                                    { s0 with input_queue := rest },
                                  writes := st.writes ++ [c],
                                  trace := st.trace ++ [⟨.input, c ++ "\n"⟩] } := by
                          simp [execStep, hh, hs, hd, hq, hl]
                        rw [hred]
                        exact ⟨hpre, hq2, hech⟩
                      · have hred : execStep sid cid st (.iter false (some l))
                            = { st with
                                  reg := dinsert st.reg (streamKey sid cid)
                                    { s0 with input_queue := rest },
                                  writes := st.writes ++ [c],
                                  trace := (st.trace ++ [⟨.input, c ++ "\n"⟩])
                                    ++ [⟨.output, l⟩] } := by
                          simp [execStep, hh, hs, hd, hq, hl, List.append_assoc]
                        rw [hred]
                        refine ⟨hpre, hq2, ?_⟩
                        show inputEchoes ((st.trace ++ [⟨.input, c ++ "\n"⟩])
                            ++ [⟨.output, l⟩]) = _
                        rw [inputEchoes_append, hech]
                        have hol : inputEchoes [⟨.output, l⟩] = [] := rfl
                        rw [hol]
                        simp
  | iterRaise m =>
      cases hh : st.halted with
      | true =>
          have hred : execStep sid cid st (.iterRaise m) = st := by
            simp [execStep, hh]
          rw [hred]
          exact ⟨h1, h2, h3⟩
      | false =>
          cases hs : observedStop st.reg (streamKey sid cid) with
          | true =>
              have hred : execStep sid cid st (.iterRaise m)
                  = execFinish (streamKey sid cid) [] st := by
                simp [execStep, hh, hs]
              rw [hred]
              exact execFinish_inv sid cid st [] rfl h1 h3
          | false =>
              have hred : execStep sid cid st (.iterRaise m)
                  = execFinish (streamKey sid cid)
                      [⟨.error, "Exec session error: " ++ m ++ "\n"⟩] st := by
                simp [execStep, hh, hs]
              rw [hred]
              exact execFinish_inv sid cid st _ rfl h1 h3

theorem execRun_inv (sid cid shell : String) (script : List ExecEv) :
    ExecInv sid cid (execRun sid cid shell script) := by
  have hinit : ExecInv sid cid (execInit sid cid shell) := by
    refine ⟨List.prefix_refl _, ?_, rfl⟩
    intro s hs
    have hs' : dlookup [(streamKey sid cid, (⟨false, []⟩ : Session))]
        (streamKey sid cid) = some s := hs
    simp [dlookup] at hs'
    subst hs'
    rfl
  show ExecInv sid cid (script.foldl (execStep sid cid) (execInit sid cid shell))
  generalize hst : execInit sid cid shell = st at hinit ⊢
  clear hst
  induction script generalizing st with
  | nil => exact hinit
  | cons e es ih => exact ih _ (execStep_inv sid cid st e hinit)

/-- Claim C9: queued input is forwarded to the exec child in FIFO order —
in every reachable state the written lines are a prefix of the accepted
inputs and the pending queue is exactly the not-yet-written remainder, so
writes happen in exactly the order the facade appended; the `input` echoes
in the trace are the written lines in the same order; and an iteration that
drains an item emits its echo before the `output` read in that iteration
(and trace growth is append-only, so outputs read after the write — which
includes everything the command produced — follow the echo). -/
theorem C9_exec_input_fifo :
    (∀ (sid cid shell : String) (script : List ExecEv),
        (execRun sid cid shell script).writes <+: (execRun sid cid shell script).accepted
        ∧ (∀ s, dlookup (execRun sid cid shell script).reg (streamKey sid cid) = some s →
            (execRun sid cid shell script).writes ++ s.input_queue
              = (execRun sid cid shell script).accepted)
        ∧ inputEchoes (execRun sid cid shell script).trace
            = (execRun sid cid shell script).writes.map (fun c => c ++ "\n"))
    ∧ (∀ (sid cid : String) (st : ExecSim) (c : String) (rest : List String) (l : String),
        st.halted = false →
        dlookup st.reg (streamKey sid cid) = some ⟨false, c :: rest⟩ →
        l ≠ "" →
        (execStep sid cid st (.iter false (some l))).trace
          = st.trace ++ [⟨.input, c ++ "\n"⟩, ⟨.output, l⟩])
    ∧ (execRun "B" "c1" "/bin/sh" [.input "pwd", .iter false (some "/root\n")]).trace
        = [⟨.system, "Starting /bin/sh session in container c1...\n"⟩,
           ⟨.prompt, "/bin/sh$ "⟩, ⟨.input, "pwd\n"⟩, ⟨.output, "/root\n"⟩] := by
  refine ⟨fun sid cid shell script => execRun_inv sid cid shell script, ?_, by decide⟩
  intro sid cid st c rest l hh hd hl
  have hs : observedStop st.reg (streamKey sid cid) = false := by
    unfold observedStop
    rw [hd]
  simp [execStep, hh, hs, hd, hl, List.append_assoc]

/-- Claim C9 witness: the spec scenario — client `B`, shell `/bin/sh`,
input `pwd` — instantiating the FIFO invariant and the echo-before-output
step property. -/
theorem C9_exec_input_fifo_witness :
    ((execRun "B" "c1" "/bin/sh" [.input "pwd", .iter false (some "/root\n")]).writes
        <+: (execRun "B" "c1" "/bin/sh" [.input "pwd", .iter false (some "/root\n")]).accepted)
    ∧ (execStep "B" "c1"
        ⟨[(streamKey "B" "c1", ⟨false, ["pwd"]⟩)], [], [], ["pwd"], false⟩
        (.iter false (some "/root\n"))).trace
      = [] ++ [⟨.input, "pwd" ++ "\n"⟩, ⟨.output, "/root\n"⟩] :=
  ⟨(C9_exec_input_fifo.1 "B" "c1" "/bin/sh" [.input "pwd", .iter false (some "/root\n")]).1,
   C9_exec_input_fifo.2.1 "B" "c1"
     ⟨[(streamKey "B" "c1", ⟨false, ["pwd"]⟩)], [], [], ["pwd"], false⟩
     "pwd" [] "/root\n" rfl (by decide) (by decide)⟩

end Servin
